import Mathlib

/-!
Shallow embedding of `edk2toolext/invocables/edk2_coverage.py`.

The file under verification defines a `CoverageSettingsManager` settings
contract (two overridable accessors returning lists of glob patterns) and an
`Edk2Coverage` invocable whose `Go` method builds a file-filter expression,
assembles the argument string for the external `reportgenerator` tool, runs
it, and maps its exit code to the invocable's result.

Python strings become `String`, Python lists become `List String`, the
`None`-able `self.coverage_files` attribute becomes `Option String`, the
external process becomes an explicit function parameter `RunCmd` returning
the tool's exit code, and the calls into the `logging` module are collected
into an explicit log list so theorems can talk about them.
-/

/-- Log levels used by the file (`logging.error`, `logging.debug`,
`logging.critical`). -/
inductive LogLevel
  | error
  | debug
  | critical
deriving DecidableEq

/-- One emitted log record: level plus the fully formatted message. -/
structure LogEntry where
  level : LogLevel
  message : String
deriving DecidableEq

/-- Embeds the `CoverageSettingsManager` settings contract: a platform
provides an inclusion list and an exclusion list of glob patterns. The
methods take no arguments, so the class is a pair of lists. -/
structure CoverageSettingsManager where
  GetCoverageInclusionList : List String
  GetCoverageExclusionList : List String

/-- The base-class defaults of `CoverageSettingsManager`: both accessors
return the empty list. -/
def CoverageSettingsManager.base : CoverageSettingsManager :=
  { GetCoverageInclusionList := [], GetCoverageExclusionList := [] }

/-- The values produced by the argument parser that
`AddCommandLineOptions` configured. `argparse` with `type=str` and a string
default always yields a string for each destination, never `None`. -/
structure ParsedArgs where
  coverage_files : String
  report_type : String
  output_dir : String

/-- Embeds `AddCommandLineOptions`: the three registered options and their
defaults (`--coverage-files`, `--report-type`, `--output-dir`). These are
the parsed values when the user passes no flags. -/
def AddCommandLineOptionsDefaults : ParsedArgs :=
  { coverage_files := "Build/**/coverage.xml",
    report_type := "Cobertura",
    output_dir := "Build/Coverage" }

/-- The instance configuration fields that `Go` reads:
`self.coverage_files`, `self.report_type`, `self.output_dir`. The
`coverage_files` field is `Option String` because `Go` guards against it
being `None`. -/
structure CoverageConfig where
  coverage_files : Option String
  report_type : String
  output_dir : String
deriving DecidableEq

/-- Embeds `RetrieveCommandLineOptions`: copies the three parsed values into
the instance configuration fields (the only writes to them). -/
def RetrieveCommandLineOptions (args : ParsedArgs) : CoverageConfig :=
  { coverage_files := some args.coverage_files,
    report_type := args.report_type,
    output_dir := args.output_dir }

/-- Embeds one of the two accumulation loops in `Go`: for each pattern,
append `;` to the accumulator unless it is still empty, then append the
mark (`-` or `+`) and the pattern. -/
def addFilters (mark : String) (patterns : List String) (ff : String) : String :=
  match patterns with
  | [] => ff
  | p :: rest => addFilters mark rest ((if ff = "" then ff else ff ++ ";") ++ (mark ++ p))

/-- The `file_filters` string built by `Go`: the exclusion loop (mark `-`)
starting from the empty string, then the inclusion loop (mark `+`) on the
result. -/
def buildFileFilters (excludes includes : List String) : String :=
  addFilters "+" includes (addFilters "-" excludes "")

/-- The argument string handed to `RunCmd` in `Go`, accumulated with `+=`
exactly in source order. -/
def buildArgs (coverage_files output_dir report_type file_filters : String) : String :=
  " -reports:" ++ coverage_files
    ++ " -targetdir:" ++ output_dir
    ++ " -reporttypes:" ++ report_type
    ++ " -filefilters:" ++ file_filters

/-- Observable outcome of one execution of `Go`: its return value, whether
the external tool was invoked and with which argument string, the
`file_filters` expression it built, the local include/exclude lists, the
log records emitted, and the configuration fields as they stand when `Go`
returns. -/
structure GoResult where
  returnCode : Int
  invokedTool : Bool
  toolArgs : Option String
  file_filters : Option String
  excludesUsed : List String
  includesUsed : List String
  logs : List LogEntry
  finalConfig : CoverageConfig

/-- Embeds `Edk2Coverage.Go`. `self` carries the configuration fields,
`PlatformSettings` the platform settings object, and `RunCmd` the external
process: it receives the command name and argument string and returns the
exit code. -/
def Go (self : CoverageConfig) (PlatformSettings : CoverageSettingsManager)
    (RunCmd : String → String → Int) : GoResult :=
  let includes : List String := [] ++ PlatformSettings.GetCoverageInclusionList
  let excludes : List String :=
    ["*AutoGen.c", "*UnitTest*"] ++ PlatformSettings.GetCoverageExclusionList
  match self.coverage_files with
  | none =>
      { returnCode := -1,
        invokedTool := false,
        toolArgs := none,
        file_filters := none,
        excludesUsed := excludes,
        includesUsed := includes,
        logs := [⟨LogLevel.error, "Path to coverage file is required!\n"⟩],
        finalConfig := self }
  | some coverage_files =>
      let file_filters := buildFileFilters excludes includes
      let args := buildArgs coverage_files self.output_dir self.report_type file_filters
      let rc := RunCmd "reportgenerator" args
      if rc = 0 then
        { returnCode := 0,
          invokedTool := true,
          toolArgs := some args,
          file_filters := some file_filters,
          excludesUsed := excludes,
          includesUsed := includes,
          logs := [⟨LogLevel.debug, "reportgenerator command returned successfully!"⟩],
          finalConfig := self }
      else
        { returnCode := rc,
          invokedTool := true,
          toolArgs := some args,
          file_filters := some file_filters,
          excludesUsed := excludes,
          includesUsed := includes,
          logs := [⟨LogLevel.critical,
            "reportgenerator returned error return value: " ++ toString rc⟩],
          finalConfig := self }

/-- Written from the specification's words: each exclusion pattern prefixed
with `-`, each inclusion pattern prefixed with `+`, all joined with `;`,
exclusions before inclusions, in their original list order, with no leading
or trailing separator. -/
def specFilterExpr (excludes includes : List String) : String :=
  String.intercalate ";"
    (excludes.map (fun p => "-" ++ p) ++ includes.map (fun p => "+" ++ p))

/-- Written from the specification's words: the four flags, each a single
space-prefixed token, concatenated in the fixed order reports, targetdir,
reporttypes, filefilters. -/
def specToolArgs (coverage_files output_dir report_type file_filters : String) : String :=
  (" " ++ "-reports:" ++ coverage_files)
    ++ (" " ++ "-targetdir:" ++ output_dir)
    ++ (" " ++ "-reporttypes:" ++ report_type)
    ++ (" " ++ "-filefilters:" ++ file_filters)

/-- Tail part of a semicolon join: each element preceded by the separator. -/
def joinTail (s : String) : List String → String
  | [] => ""
  | x :: rest => s ++ x ++ joinTail s rest

theorem intercalate_go_eq (s : String) (l : List String) :
    ∀ acc : String, String.intercalate.go acc s l = acc ++ joinTail s l := by
  induction l with
  | nil => intro acc; simp [String.intercalate.go, joinTail]
  | cons x rest ih =>
      intro acc
      simp only [String.intercalate.go, joinTail, ih (acc ++ s ++ x)]
      simp [String.append_assoc]

theorem intercalate_cons (s x : String) (l : List String) :
    String.intercalate s (x :: l) = x ++ joinTail s l := by
  simp [String.intercalate, intercalate_go_eq]

theorem append_ne_empty_left (a b : String) (h : a ≠ "") : a ++ b ≠ "" := by
  intro hc
  apply h
  apply String.ext
  have hd : (a ++ b).data = ("" : String).data := by rw [hc]
  rw [String.data_append] at hd
  have h2 : a.data ++ b.data = [] := hd
  exact (List.append_eq_nil.mp h2).1

theorem joinTail_append (s : String) (l1 l2 : List String) :
    joinTail s (l1 ++ l2) = joinTail s l1 ++ joinTail s l2 := by
  induction l1 with
  | nil => simp [joinTail]
  | cons x rest ih => simp [joinTail, ih, String.append_assoc]

theorem addFilters_acc_ne (m : String) (ps : List String) :
    ∀ acc : String, acc ≠ "" →
      addFilters m ps acc = acc ++ joinTail ";" (ps.map (fun p => m ++ p)) := by
  induction ps with
  | nil => intro acc _; simp [addFilters, joinTail]
  | cons p rest ih =>
      intro acc hacc
      rw [addFilters, if_neg hacc]
      rw [ih ((acc ++ ";") ++ (m ++ p)) (append_ne_empty_left _ _ (append_ne_empty_left _ _ hacc))]
      simp [joinTail, String.append_assoc]

theorem addFilters_empty_acc (m : String) (hm : m ≠ "") (ps : List String) :
    addFilters m ps "" = String.intercalate ";" (ps.map (fun p => m ++ p)) := by
  cases ps with
  | nil => simp [addFilters, String.intercalate]
  | cons p rest =>
      rw [addFilters, if_pos rfl, String.empty_append]
      rw [addFilters_acc_ne m rest (m ++ p) (append_ne_empty_left m p hm)]
      rw [List.map_cons, intercalate_cons]

theorem buildFileFilters_eq_spec (excludes includes : List String) :
    buildFileFilters excludes includes = specFilterExpr excludes includes := by
  cases excludes with
  | nil =>
      rw [buildFileFilters, addFilters, addFilters_empty_acc "+" (by decide) includes]
      simp [specFilterExpr]
  | cons e rest =>
      have he : ("-" ++ e : String) ≠ "" := append_ne_empty_left "-" e (by decide)
      have hinner : addFilters "-" (e :: rest) "" =
          ("-" ++ e) ++ joinTail ";" (rest.map (fun p => "-" ++ p)) := by
        rw [addFilters, if_pos rfl, String.empty_append]
        exact addFilters_acc_ne "-" rest ("-" ++ e) he
      have hne : addFilters "-" (e :: rest) "" ≠ "" := by
        rw [hinner]; exact append_ne_empty_left _ _ he
      rw [buildFileFilters, addFilters_acc_ne "+" includes _ hne, hinner]
      rw [specFilterExpr, List.map_cons, List.cons_append, intercalate_cons, joinTail_append]
      simp [String.append_assoc]

theorem addFilters_pre (m : String) (ps : List String) (acc : String) (h : acc ≠ "") :
    ∃ s, addFilters m ps acc = acc ++ s :=
  ⟨joinTail ";" (ps.map (fun p => m ++ p)), addFilters_acc_ne m ps acc h⟩

theorem buildFileFilters_baseline (extra includes : List String) :
    ∃ s, buildFileFilters (["*AutoGen.c", "*UnitTest*"] ++ extra) includes =
      "-*AutoGen.c;-*UnitTest*" ++ s := by
  have h1 : addFilters "-" (["*AutoGen.c", "*UnitTest*"] ++ extra) "" =
      addFilters "-" extra "-*AutoGen.c;-*UnitTest*" := rfl
  obtain ⟨s1, hs1⟩ := addFilters_pre "-" extra "-*AutoGen.c;-*UnitTest*" (by decide)
  have hne : addFilters "-" extra "-*AutoGen.c;-*UnitTest*" ≠ "" := by
    rw [hs1]; exact append_ne_empty_left _ _ (by decide)
  obtain ⟨s2, hs2⟩ := addFilters_pre "+" includes _ hne
  refine ⟨s1 ++ s2, ?_⟩
  rw [buildFileFilters, h1, hs2, hs1, String.append_assoc]

theorem go_excludesUsed (cfg : CoverageConfig) (sm : CoverageSettingsManager)
    (run : String → String → Int) :
    (Go cfg sm run).excludesUsed =
      ["*AutoGen.c", "*UnitTest*"] ++ sm.GetCoverageExclusionList := by
  cases h : cfg.coverage_files with
  | none => simp only [Go, h]
  | some cf =>
      simp only [Go, h]
      split <;> rfl

theorem go_includesUsed (cfg : CoverageConfig) (sm : CoverageSettingsManager)
    (run : String → String → Int) :
    (Go cfg sm run).includesUsed = sm.GetCoverageInclusionList := by
  cases h : cfg.coverage_files with
  | none => simp only [Go, h, List.nil_append]
  | some cf =>
      simp only [Go, h]
      split <;> rfl

theorem go_finalConfig (cfg : CoverageConfig) (sm : CoverageSettingsManager)
    (run : String → String → Int) :
    (Go cfg sm run).finalConfig = cfg := by
  cases h : cfg.coverage_files with
  | none => simp only [Go, h]
  | some cf =>
      simp only [Go, h]
      split <;> rfl

theorem go_file_filters_some (cfg : CoverageConfig) (sm : CoverageSettingsManager)
    (run : String → String → Int) (cf : String) (h : cfg.coverage_files = some cf) :
    (Go cfg sm run).file_filters =
      some (buildFileFilters
        (["*AutoGen.c", "*UnitTest*"] ++ sm.GetCoverageExclusionList)
        ([] ++ sm.GetCoverageInclusionList)) := by
  simp only [Go, h]
  split <;> rfl

theorem go_toolArgs_some (cfg : CoverageConfig) (sm : CoverageSettingsManager)
    (run : String → String → Int) (cf : String) (h : cfg.coverage_files = some cf) :
    (Go cfg sm run).toolArgs =
      some (buildArgs cf cfg.output_dir cfg.report_type
        (buildFileFilters
          (["*AutoGen.c", "*UnitTest*"] ++ sm.GetCoverageExclusionList)
          ([] ++ sm.GetCoverageInclusionList))) := by
  simp only [Go, h]
  split <;> rfl

theorem go_invokedTool_some (cfg : CoverageConfig) (sm : CoverageSettingsManager)
    (run : String → String → Int) (cf : String) (h : cfg.coverage_files = some cf) :
    (Go cfg sm run).invokedTool = true := by
  simp only [Go, h]
  split <;> rfl

theorem buildArgs_eq_specToolArgs (a b c d : String) :
    buildArgs a b c d = specToolArgs a b c d := by
  have e1 : (" " ++ "-reports:" : String) = " -reports:" := rfl
  have e2 : (" " ++ "-targetdir:" : String) = " -targetdir:" := rfl
  have e3 : (" " ++ "-reporttypes:" : String) = " -reporttypes:" := rfl
  have e4 : (" " ++ "-filefilters:" : String) = " -filefilters:" := rfl
  unfold buildArgs specToolArgs
  rw [e1, e2, e3, e4]
  simp only [String.append_assoc]

/-- C1: for every exclusion list and inclusion list produced in `Go`, the
filter expression passed to the external tool is each exclusion pattern
prefixed with `-` followed by each inclusion pattern prefixed with `+`, all
joined with `;`, exclusions before inclusions in their original list order,
with no leading or trailing separator. -/
theorem go_filter_expression_joined (cfg : CoverageConfig) (sm : CoverageSettingsManager)
    (run : String → String → Int) (cf : String) (h : cfg.coverage_files = some cf) :
    (Go cfg sm run).file_filters =
      some (String.intercalate ";"
        ((Go cfg sm run).excludesUsed.map (fun p => "-" ++ p) ++
         (Go cfg sm run).includesUsed.map (fun p => "+" ++ p))) := by
  rw [go_file_filters_some cfg sm run cf h, go_excludesUsed, go_includesUsed,
    List.nil_append, buildFileFilters_eq_spec, specFilterExpr]

/-- Witness for C1 at a concrete run. -/
theorem go_filter_expression_joined_witness :
    (Go ⟨some "Build/**/coverage.xml", "Cobertura", "Build/Coverage"⟩
        ⟨["Foo.c"], ["Bar.c"]⟩ (fun _ _ => 0)).file_filters =
      some (String.intercalate ";"
        ((Go ⟨some "Build/**/coverage.xml", "Cobertura", "Build/Coverage"⟩
            ⟨["Foo.c"], ["Bar.c"]⟩ (fun _ _ => 0)).excludesUsed.map (fun p => "-" ++ p) ++
         (Go ⟨some "Build/**/coverage.xml", "Cobertura", "Build/Coverage"⟩
            ⟨["Foo.c"], ["Bar.c"]⟩ (fun _ _ => 0)).includesUsed.map (fun p => "+" ++ p))) :=
  go_filter_expression_joined _ _ _ "Build/**/coverage.xml" rfl

/-- C2: `Go` returns `-1` exactly when the coverage-file glob is missing,
and otherwise returns `0` when the external tool's exit code is `0` and the
tool's exit code itself when it is nonzero — a complete characterisation of
the return value. -/
theorem go_exit_code_complete (cfg : CoverageConfig) (sm : CoverageSettingsManager)
    (run : String → String → Int) :
    (Go cfg sm run).returnCode =
      match cfg.coverage_files with
      | none => -1
      | some cf =>
          let rc := run "reportgenerator"
            (buildArgs cf cfg.output_dir cfg.report_type
              (buildFileFilters
                (["*AutoGen.c", "*UnitTest*"] ++ sm.GetCoverageExclusionList)
                ([] ++ sm.GetCoverageInclusionList)))
          if rc = 0 then 0 else rc := by
  cases h : cfg.coverage_files with
  | none => simp only [Go, h]
  | some cf =>
      simp only [Go, h]
      split
      next => rfl
      next => rfl

/-- C3: if the coverage-file configuration is `None`, `Go` logs an error
and returns `-1` without invoking the external report-generation tool. -/
theorem go_missing_coverage_files (cfg : CoverageConfig) (sm : CoverageSettingsManager)
    (run : String → String → Int) (h : cfg.coverage_files = none) :
    (Go cfg sm run).returnCode = -1 ∧ (Go cfg sm run).invokedTool = false ∧
    (Go cfg sm run).logs = [⟨LogLevel.error, "Path to coverage file is required!\n"⟩] := by
  simp [Go, h]

/-- Witness for C3 at a concrete run with a missing glob. -/
theorem go_missing_coverage_files_witness :
    (Go ⟨none, "Cobertura", "Build/Coverage"⟩ CoverageSettingsManager.base
        (fun _ _ => 0)).returnCode = -1 ∧
    (Go ⟨none, "Cobertura", "Build/Coverage"⟩ CoverageSettingsManager.base
        (fun _ _ => 0)).invokedTool = false ∧
    (Go ⟨none, "Cobertura", "Build/Coverage"⟩ CoverageSettingsManager.base
        (fun _ _ => 0)).logs =
      [⟨LogLevel.error, "Path to coverage file is required!\n"⟩] :=
  go_missing_coverage_files _ _ _ rfl

/-- C4: the exclusion list used by `Go` is the fixed baseline
`[*AutoGen.c, *UnitTest*]` with the platform's exclusion list appended after
it (baseline present and first), and the inclusion list is exactly the
platform's inclusion list with no baseline. -/
theorem go_filter_lists (cfg : CoverageConfig) (sm : CoverageSettingsManager)
    (run : String → String → Int) :
    (Go cfg sm run).excludesUsed =
      ["*AutoGen.c", "*UnitTest*"] ++ sm.GetCoverageExclusionList ∧
    (Go cfg sm run).excludesUsed.take 2 = ["*AutoGen.c", "*UnitTest*"] ∧
    (Go cfg sm run).includesUsed = sm.GetCoverageInclusionList := by
  refine ⟨go_excludesUsed cfg sm run, ?_, go_includesUsed cfg sm run⟩
  rw [go_excludesUsed]
  rfl

/-- C5: the argument string handed to the `reportgenerator` executable is
exactly the four flags reports, targetdir, reporttypes, filefilters, each a
single space-prefixed token, concatenated in that fixed order. -/
theorem go_tool_argument_string (cfg : CoverageConfig) (sm : CoverageSettingsManager)
    (run : String → String → Int) (cf : String) (h : cfg.coverage_files = some cf) :
    (Go cfg sm run).toolArgs =
      some (specToolArgs cf cfg.output_dir cfg.report_type
        (buildFileFilters
          (["*AutoGen.c", "*UnitTest*"] ++ sm.GetCoverageExclusionList)
          sm.GetCoverageInclusionList)) := by
  rw [go_toolArgs_some cfg sm run cf h, buildArgs_eq_specToolArgs, List.nil_append]

/-- Witness for C5 at a concrete run. -/
theorem go_tool_argument_string_witness :
    (Go ⟨some "Build/**/coverage.xml", "Cobertura", "Build/Coverage"⟩
        ⟨["Foo.c"], ["Bar.c"]⟩ (fun _ _ => 0)).toolArgs =
      some (specToolArgs "Build/**/coverage.xml" "Build/Coverage" "Cobertura"
        (buildFileFilters (["*AutoGen.c", "*UnitTest*"] ++ ["Bar.c"]) ["Foo.c"])) :=
  go_tool_argument_string _ _ _ "Build/**/coverage.xml" rfl

/-- C6: whenever the platform's inclusion and exclusion operations both
return the empty list, the filter expression built by `Go` is exactly the
baseline string. -/
theorem go_empty_lists_filter (cfg : CoverageConfig) (sm : CoverageSettingsManager)
    (run : String → String → Int) (cf : String)
    (hin : sm.GetCoverageInclusionList = []) (hex : sm.GetCoverageExclusionList = [])
    (h : cfg.coverage_files = some cf) :
    (Go cfg sm run).file_filters = some "-*AutoGen.c;-*UnitTest*" := by
  rw [go_file_filters_some cfg sm run cf h, hin, hex]
  rfl

/-- Witness for C6 at a concrete run with the base settings manager. -/
theorem go_empty_lists_filter_witness :
    (Go ⟨some "Build/**/coverage.xml", "Cobertura", "Build/Coverage"⟩
        CoverageSettingsManager.base (fun _ _ => 0)).file_filters =
      some "-*AutoGen.c;-*UnitTest*" :=
  go_empty_lists_filter _ _ _ "Build/**/coverage.xml" rfl rfl rfl

/-- C7: for inclusion list `[Foo.c]` and exclusion list `[Bar.c]`, the
filter expression built by `Go` is `-*AutoGen.c;-*UnitTest*;-Bar.c;+Foo.c`. -/
theorem go_example_filter :
    (Go ⟨some "Build/**/coverage.xml", "Cobertura", "Build/Coverage"⟩
        ⟨["Foo.c"], ["Bar.c"]⟩ (fun _ _ => 0)).file_filters =
      some "-*AutoGen.c;-*UnitTest*;-Bar.c;+Foo.c" := by
  rfl

/-- C8: the three configuration fields are written exactly once, during
option retrieval, and `Go` leaves all three unchanged on every execution
path (the frame property holds for arbitrary configuration, settings and
external exit code, hence for the missing-glob, success and failure paths
alike). -/
theorem config_write_once_frame (args : ParsedArgs) (cfg : CoverageConfig)
    (sm : CoverageSettingsManager) (run : String → String → Int) :
    RetrieveCommandLineOptions args =
      { coverage_files := some args.coverage_files,
        report_type := args.report_type,
        output_dir := args.output_dir } ∧
    (Go cfg sm run).finalConfig = cfg :=
  ⟨rfl, go_finalConfig cfg sm run⟩

/-- C9: the filter expression built by `Go` always starts with the two
baseline exclusion tokens and is therefore never the empty string, so the
filefilters flag always carries a non-empty value. -/
theorem go_filter_never_empty (cfg : CoverageConfig) (sm : CoverageSettingsManager)
    (run : String → String → Int) (ff : String)
    (h : (Go cfg sm run).file_filters = some ff) :
    (∃ s, ff = "-*AutoGen.c;-*UnitTest*" ++ s) ∧ ff ≠ "" := by
  cases hc : cfg.coverage_files with
  | none =>
      simp only [Go, hc] at h
      exact Option.noConfusion h
  | some cf =>
      rw [go_file_filters_some cfg sm run cf hc] at h
      injection h with h2
      obtain ⟨s, hs⟩ := buildFileFilters_baseline sm.GetCoverageExclusionList
        ([] ++ sm.GetCoverageInclusionList)
      rw [hs] at h2
      refine ⟨⟨s, h2.symm⟩, ?_⟩
      rw [← h2]
      exact append_ne_empty_left _ _ (by decide)

/-- Witness for C9 at a concrete run. -/
theorem go_filter_never_empty_witness :
    (∃ s, "-*AutoGen.c;-*UnitTest*" = "-*AutoGen.c;-*UnitTest*" ++ s) ∧
    ("-*AutoGen.c;-*UnitTest*" : String) ≠ "" :=
  go_filter_never_empty ⟨some "Build/**/coverage.xml", "Cobertura", "Build/Coverage"⟩
    CoverageSettingsManager.base (fun _ _ => 0) "-*AutoGen.c;-*UnitTest*" rfl

/-- C10: the registered parser default for the coverage-files option is the
non-None string `Build/**/coverage.xml`, and for any values retrieved from
the parser the configuration field is non-None, so `Go`'s missing-glob
branch is unreachable and the tool is always invoked. -/
theorem retrieved_options_reach_tool (args : ParsedArgs) (sm : CoverageSettingsManager)
    (run : String → String → Int) :
    AddCommandLineOptionsDefaults.coverage_files = "Build/**/coverage.xml" ∧
    (RetrieveCommandLineOptions args).coverage_files ≠ none ∧
    (Go (RetrieveCommandLineOptions args) sm run).invokedTool = true :=
  ⟨rfl, by simp [RetrieveCommandLineOptions],
    go_invokedTool_some _ sm run args.coverage_files rfl⟩
